import Mathlib

/-!
# Control-plane event loop of the MQTT audio client

A shallow embedding of `cmd/client_mqtt.go`: topic derivation, the two send
helpers (`sendClientRequest`, `sendPing`), one iteration of the `select` loop of
`mqttAudioClient`, and the shutdown barrier (`sync.WaitGroup`) that guards
`os.Exit`.

The outbound channel is modelled by its contents, a FIFO list bounded by the
capacity it was made with: a send appends at the end when there is room and
parks the sender when the channel is full. The event bus is the ordered log of
its publications, the clock the reading handed to the iteration that consults
it.  Packages `sb_audio`, `comms`
and `events` are imported by the file but are not part of it; their message
types, constants and the protobuf codec are declared below as data or taken as
parameters.
-/

namespace RemoteAudio

/-! ## Data model -/

/-- A byte string, `[]byte`; every element is meant to be below 256. -/
abbrev Bytes := List Nat

/-- Modelled from the spec: `comms.IOMsg` (package comms), the WireMessage of
the data model: a topic and a payload. -/
structure IOMsg where
  Topic : String
  Data : Bytes
deriving DecidableEq, Repr

/-- Modelled from the spec: `sbAudio.ClientRequest` (package sb_audio), three
presence-optional fields; a nil pointer is `none`. -/
structure ClientRequest where
  AudioStream : Option Bool
  PingOrigin : Option String
  Ping : Option Int
deriving DecidableEq, Repr

/-- Modelled from the spec: `sbAudio.ServerResponse` (package sb_audio), five
presence-optional fields; a nil pointer is `none`. -/
structure ServerResponse where
  Online : Option Bool
  AudioStream : Option Bool
  TxUser : Option String
  PingOrigin : Option String
  Pong : Option Int
deriving DecidableEq, Repr

/-- The zero value `sbAudio.ServerResponse{}`. -/
def ServerResponse.zero : ServerResponse :=
  { Online := none, AudioStream := none, TxUser := none, PingOrigin := none, Pong := none }

/-- Modelled from the spec: generated getter `GetOnline`, the pointed-to value
when the field is present and the zero value otherwise. -/
def ServerResponse.GetOnline (m : ServerResponse) : Bool := m.Online.getD false

/-- Modelled from the spec: generated getter `GetAudioStream`. -/
def ServerResponse.GetAudioStream (m : ServerResponse) : Bool := m.AudioStream.getD false

/-- Modelled from the spec: generated getter `GetTxUser`. -/
def ServerResponse.GetTxUser (m : ServerResponse) : String := m.TxUser.getD ""

/-- Modelled from the spec: generated getter `GetPingOrigin`. -/
def ServerResponse.GetPingOrigin (m : ServerResponse) : String := m.PingOrigin.getD ""

/-- Modelled from the spec: generated getter `GetPong`. -/
def ServerResponse.GetPong (m : ServerResponse) : Int := m.Pong.getD 0

/-- Modelled from the spec: the connection-status constants of package comms,
in the order Disconnected, Connecting, Connected of the data model. -/
def DISCONNECTED : Int := 0

/-- Modelled from the spec: see `DISCONNECTED`. -/
def CONNECTING : Int := 1

/-- Modelled from the spec: see `DISCONNECTED`. -/
def CONNECTED : Int := 2

/-- Modelled from the spec: the bus topics of package events that the client
subscribes to or publishes on. -/
inductive Topic
  | MqttConnStatus
  | RequestServerAudioOn
  | OsExit
  | Shutdown
  | ServerOnline
  | ServerAudioOn
  | TxUser
  | Ping
deriving DecidableEq, Repr

/-- The dynamically typed value handed to `evPS.Pub`. -/
inductive Value
  | bool (b : Bool)
  | int (i : Int)
  | str (s : String)
deriving DecidableEq, Repr

/-- One call `evPS.Pub(value, topic)`. -/
structure BusEvent where
  topic : Topic
  value : Value
deriving DecidableEq, Repr

/-- The protobuf codec of package sb_audio, taken as a parameter.
`Marshal` is `req.Marshal()`; `Unmarshal data` is `proto.Unmarshal(data, &msg)`
on a fresh `msg`: it returns the message as the decoder left it together with
the error, if any. -/
structure Codec where
  Marshal : ClientRequest → Except String Bytes
  Unmarshal : Bytes → ServerResponse × Option String

/-! ## Topics (lines 107-118) -/

/-- The base topic, `serverBaseTopic`. -/
def serverBaseTopic (station radio : String) : String :=
  station ++ "/radios/" ++ radio ++ "/audio"

/-- The request topic, `serverRequestTopic`. -/
def serverRequestTopic (station radio : String) : String :=
  serverBaseTopic station radio ++ "/request"

/-- The response topic, `serverResponseTopic`. -/
def serverResponseTopic (station radio : String) : String :=
  serverBaseTopic station radio ++ "/response"

/-- The topic of inbound audio, `serverAudioOutTopic`. -/
def serverAudioOutTopic (station radio : String) : String :=
  serverBaseTopic station radio ++ "/audio_out"

/-- The topic of outbound audio, `serverAudioInTopic`. -/
def serverAudioInTopic (station radio : String) : String :=
  serverBaseTopic station radio ++ "/audio_in"

/-- The subscription list, `mqttTopics`. -/
def mqttTopics (station radio : String) : List String :=
  [serverResponseTopic station radio, serverAudioOutTopic station radio]

/-- The topic-carrying fields of the three worker settings built in
`mqttAudioClient`: `settings.Topics`, `player.AudioToWireTopic`,
`recorder.AudioToWireTopic`. -/
structure Wiring where
  settingsTopics : List String
  playerAudioToWireTopic : String
  recorderAudioToWireTopic : String
deriving DecidableEq, Repr

/-- The settings literals of lines 143-194, restricted to their topics. -/
def wiring (station radio : String) : Wiring :=
  { settingsTopics := mqttTopics station radio
    playerAudioToWireTopic := serverAudioOutTopic station radio
    recorderAudioToWireTopic := serverAudioInTopic station radio }

/-! ## Clock -/

/-- The least `time.Duration`. -/
def minDuration : Int := -(2 ^ 63)

/-- The greatest `time.Duration`. -/
def maxDuration : Int := 2 ^ 63 - 1

/-- The call `time.Since(time.Unix(0, t)).Nanoseconds()` at clock reading `now`
(nanoseconds since the epoch): the difference, saturated to the range of a
`time.Duration`. -/
def timeSince (now t : Int) : Int :=
  let d := now - t
  if d < minDuration then minDuration
  else if maxDuration < d then maxDuration
  else d

/-! ## Send helpers (lines 291-325) -/

/-- The capacity of the outbound queue, `make(chan comms.IOMsg, 20)` (line 134). -/
def toWireChCap : Nat := 20

/-- The outcome of a call that sends on `toWireCh`: either it has returned
`ret`, leaving the queue with contents `ch`; or the queue is full and the caller
is parked in the send of `m`, nothing enqueued, to return `ret` once that send
has gone through. -/
inductive Sent (α : Type)
  | done (ret : α) (ch : List IOMsg)
  | parked (ret : α) (m : IOMsg)
deriving DecidableEq, Repr

/-- The value a call returns, at once or after its parked send. -/
def Sent.ret {α : Type} : Sent α → α
  | .done r _ => r
  | .parked r _ => r

/-- The statement `toWireCh <- m` followed by `return ret`: a send on the
buffered channel goes through when fewer than `toWireChCap` messages are queued
and blocks otherwise. -/
def chanSend {α : Type} (ret : α) (toWireCh : List IOMsg) (m : IOMsg) : Sent α :=
  if toWireCh.length < toWireChCap then .done ret (toWireCh ++ [m])
  else .parked ret m

/-- The function `sendClientRequest` on a queue with contents `toWireCh`; the
value returned is the error result (always nil). -/
def sendClientRequest (c : Codec) (audioStreamOn : Bool) (topic : String)
    (toWireCh : List IOMsg) : Sent (Option String) :=
  let req : ClientRequest :=
    { AudioStream := some audioStreamOn, PingOrigin := none, Ping := none }
  match c.Marshal req with
  | .error _ => .done none toWireCh
  | .ok m => chanSend none toWireCh { Topic := topic, Data := m }

/-- The function `sendPing` on a queue with contents `toWireCh`; `now` is the
reading `time.Now().UnixNano()` it takes. -/
def sendPing (c : Codec) (now : Int) (user_id topic : String)
    (toWireCh : List IOMsg) : Sent Unit :=
  let req : ClientRequest :=
    { AudioStream := none, PingOrigin := some user_id, Ping := some now }
  match c.Marshal req with
  | .error _ => .done () toWireCh
  | .ok data => chanSend () toWireCh { Topic := topic, Data := data }

/-! ## The event loop (lines 209-288) -/

/-- What the loop closes over: the codec, `userID` and `serverRequestTopic`. -/
structure Env where
  codec : Codec
  userID : String
  serverRequestTopic : String

/-- The closure of the loop in `mqttAudioClient`, for a codec, the identity
`userID` and the configured station and radio. -/
def clientEnv (codec : Codec) (userID station radio : String) : Env :=
  { codec := codec, userID := userID,
    serverRequestTopic := serverRequestTopic station radio }

/-- The loop's local states together with the two things it writes to: the
outbound queue `toWireCh` and the bus `evPS` (as the log of publications). -/
structure State where
  connectionStatus : Int
  serverOnline : Bool
  serverAudioOn : Bool
  toWireCh : List IOMsg
  evPS : List BusEvent
deriving DecidableEq, Repr

/-- The state on entry to the loop (lines 216-219), nothing sent or published. -/
def State.start : State :=
  { connectionStatus := DISCONNECTED, serverOnline := false, serverAudioOn := false,
    toWireCh := [], evPS := [] }

/-- The ready case of the `select`, with the value received. -/
inductive Input
  | osExit
  | shutdown
  | connectionStatus (ev : Int)
  | pingTick
  | reqServerAudioOn (ev : Bool)
  | response (data : IOMsg)
deriving DecidableEq, Repr

/-- How an iteration ends: back to the `select`, in `wg.Wait(); os.Exit(0)`, or
not yet: parked in the send of `m` on the full outbound queue. -/
inductive Control
  | next
  | waitThenExit
  | parked (m : IOMsg)
deriving DecidableEq, Repr

/-- Lines 261-286: the four field checks applied to the message `msg` that
`proto.Unmarshal` filled in. -/
def dispatchResponse (env : Env) (now : Int) (s : State) (msg : ServerResponse) : State :=
  let s1 :=
    if msg.Online.isSome then
      { s with serverOnline := msg.GetOnline,
               evPS := s.evPS ++ [{ topic := Topic.ServerOnline, value := Value.bool msg.GetOnline }] }
    else s
  let s2 :=
    if msg.AudioStream.isSome then
      { s1 with serverAudioOn := msg.GetAudioStream,
                evPS := s1.evPS ++ [{ topic := Topic.ServerAudioOn, value := Value.bool msg.GetAudioStream }] }
    else s1
  let s3 :=
    if msg.TxUser.isSome then
      { s2 with evPS := s2.evPS ++ [{ topic := Topic.TxUser, value := Value.str msg.GetTxUser }] }
    else s2
  if msg.PingOrigin.isSome && msg.Pong.isSome then
    if msg.GetPingOrigin = env.userID then
      { s3 with evPS := s3.evPS ++ [{ topic := Topic.Ping, value := Value.int (timeSince now msg.GetPong) }] }
    else s3
  else s3

/-- One iteration of the `for { select { ... } }` loop on the ready case `i`,
at clock reading `now`. -/
def loopIteration (env : Env) (now : Int) (s : State) (i : Input) : State × Control :=
  match i with
  | .osExit =>
    ({ s with evPS := s.evPS ++ [{ topic := Topic.Shutdown, value := Value.bool true }] }, .next)
  | .shutdown => (s, .waitThenExit)
  | .connectionStatus ev => ({ s with connectionStatus := ev }, .next)
  | .pingTick =>
    if s.connectionStatus = CONNECTED then
      match sendPing env.codec now env.userID env.serverRequestTopic s.toWireCh with
      | .done _ ch => ({ s with toWireCh := ch }, .next)
      | .parked _ m => (s, .parked m)
    else (s, .next)
  | .reqServerAudioOn ev =>
    if s.connectionStatus = CONNECTED then
      -- the returned error is nil, so nothing is printed
      match sendClientRequest env.codec ev env.serverRequestTopic s.toWireCh with
      | .done _ ch => ({ s with toWireCh := ch }, .next)
      | .parked _ m => (s, .parked m)
    else (s, .next)
  | .response data =>
    -- the error is printed and the checks below run on `msg` all the same
    let (msg, _err) := env.codec.Unmarshal data.Data
    (dispatchResponse env now s msg, .next)

/-- The loop parked in the send of `m` tries again: the send goes through as
soon as the queue has room, and the loop is back in its `select` (neither call
site does anything after the helper returns). -/
def completeSend (s : State) (m : IOMsg) : State × Control :=
  match chanSend () s.toWireCh m with
  | .done _ ch => ({ s with toWireCh := ch }, .next)
  | .parked _ p => (s, .parked p)

/-! ## Observations on the bus -/

/-- The values published on topic `t` between two states of the bus log. -/
def publishedOn (t : Topic) (before after : State) : List Value :=
  ((after.evPS.drop before.evPS.length).filter (fun e => decide (e.topic = t))).map (·.value)

/-- The messages put on the outbound queue between two states. -/
def enqueued (before after : State) : List IOMsg :=
  after.toWireCh.drop before.toWireCh.length

/-- The transmitting user as a subscriber of the bus knows it: the value of the
latest TxUser publication, if there was one. -/
def lastTxUser (log : List BusEvent) : Option Value :=
  ((log.filter (fun e => decide (e.topic = Topic.TxUser))).getLast?).map (·.value)

/-! ## The shutdown barrier (lines 141, 196, 229-231) -/

/-- The three goroutines registered on the WaitGroup by `wg.Add(3)`. -/
inductive Worker
  | mqtt
  | player
  | recorder
deriving DecidableEq, Repr

/-- Where the loop's goroutine is: in the `select`, parked in a send on the full
outbound queue, blocked in `wg.Wait()`, or past `os.Exit(0)`. -/
inductive Phase
  | selecting
  | sending (m : IOMsg)
  | waiting
  | exited
deriving DecidableEq, Repr

/-- The process: the WaitGroup counter, the workers that have not returned yet,
the loop's phase and the loop's state. -/
structure Sys where
  wg : Int
  running : List Worker
  phase : Phase
  loop : State
deriving DecidableEq, Repr

/-- The process when the loop is entered: `wg.Add(3)` on a fresh WaitGroup, the
three workers started. -/
def Sys.start : Sys :=
  { wg := 0 + 3, running := [Worker.mqtt, Worker.player, Worker.recorder],
    phase := Phase.selecting, loop := State.start }

/-- One atomic step of the process. -/
inductive Action
  | workerDone (w : Worker)
  | input (now : Int) (i : Input)
  | waitReturns
  | sendCompletes
  | transportTakes
  | recorderSends (m : IOMsg)
deriving DecidableEq, Repr

/-- Modelled from the spec: the worker functions `comms.MqttClient`,
`audio.PlayerASync` and `audio.RecorderAsync` are not part of the file; a worker
that returns calls `wg.Done()` once, on every exit path, error exits included.
Not enabled for a worker that has returned already, nor after the process has
exited. -/
def workerReturns (s : Sys) (w : Worker) : Option Sys :=
  if s.phase ≠ Phase.exited ∧ w ∈ s.running then
    some { s with wg := s.wg - 1, running := s.running.erase w }
  else none

/-- Modelled from the spec: the transport worker `comms.MqttClient` is not part
of the file; while it runs it takes the message at the head of the outbound
queue (`settings.ToWire`, line 153). -/
def transportTakes (s : Sys) : Option Sys :=
  if s.phase ≠ Phase.exited ∧ Worker.mqtt ∈ s.running then
    match s.loop.toWireCh with
    | [] => none
    | _ :: rest => some { s with loop := { s.loop with toWireCh := rest } }
  else none

/-- Modelled from the spec: the recorder worker `audio.RecorderAsync` is not
part of the file; while it runs it puts encoded audio frames on the outbound
queue (`recorder.ToWire`, line 181), blocking when the queue is full. -/
def recorderSends (s : Sys) (m : IOMsg) : Option Sys :=
  if s.phase ≠ Phase.exited ∧ Worker.recorder ∈ s.running
      ∧ s.loop.toWireCh.length < toWireChCap then
    some { s with loop := { s.loop with toWireCh := s.loop.toWireCh ++ [m] } }
  else none

/-- One step of the process. `workerDone` is a worker returning; `input` runs
one iteration of the loop when the loop is in its `select`: a Shutdown event
takes it into `wg.Wait()`, a send on the full outbound queue parks it;
`sendCompletes` is that parked send going through once the queue has room;
`waitReturns` is `wg.Wait()` returning, which the WaitGroup allows with the
counter at zero only, followed by `os.Exit(0)`; `transportTakes` and
`recorderSends` are the other two users of the outbound queue. Nothing happens
after the exit. -/
def sysStep (env : Env) (s : Sys) : Action → Option Sys
  | .workerDone w => workerReturns s w
  | .input now i =>
    if s.phase = Phase.selecting then
      match loopIteration env now s.loop i with
      | (st, .next) => some { s with loop := st }
      | (st, .waitThenExit) => some { s with loop := st, phase := Phase.waiting }
      | (st, .parked m) => some { s with loop := st, phase := Phase.sending m }
    else none
  | .waitReturns =>
    if s.phase = Phase.waiting ∧ s.wg = 0 then some { s with phase := Phase.exited }
    else none
  | .sendCompletes =>
    match s.phase with
    | .sending m =>
      match completeSend s.loop m with
      | (st, .next) => some { s with loop := st, phase := Phase.selecting }
      | _ => none
    | _ => none
  | .transportTakes => transportTakes s
  | .recorderSends m => recorderSends s m

/-- An execution: the steps taken one after the other, none if one of them is
not enabled. -/
def run (env : Env) : Sys → List Action → Option Sys
  | s, [] => some s
  | s, a :: rest =>
    match sysStep env s a with
    | none => none
    | some t => run env t rest

/-- The counter equals the number of workers still running, and the process has
exited only with the counter at zero. -/
def BarrierInv (s : Sys) : Prop :=
  s.wg = (s.running.length : Int) ∧ (s.phase = Phase.exited → s.wg = 0)

/-- The number of `wg.Done()` calls in an execution. -/
def doneCount (acts : List Action) : Nat :=
  (acts.filter (fun a => match a with | .workerDone _ => true | _ => false)).length

/-! ## A sample codec

The generated codec is a parameter of everything above. The one below is a small
stand-in with the same shape (tagged fields written and read in sequence), used
to run the loop on concrete payloads. -/

/-- Eight bytes, least significant first, of an integer modulo `2 ^ 64`. -/
def fixed64 (t : Int) : Bytes :=
  (List.range 8).map (fun k => ((t % 2 ^ 64) / 256 ^ k % 256).toNat)

/-- The signed integer held by eight bytes, least significant first. -/
def unfixed64 (bs : Bytes) : Int :=
  let v : Nat := bs.foldr (fun b acc => b % 256 + 256 * acc) 0
  if v < 2 ^ 63 then (v : Int) else (v : Int) - 2 ^ 64

/-- Sample encoder: field 1 a one-byte boolean, field 2 a string with a
one-byte length, field 3 eight fixed bytes. It fails on a string of 128 or
more characters. -/
def sampleMarshal (req : ClientRequest) : Except String Bytes :=
  match req.PingOrigin with
  | some o =>
    if 128 ≤ o.length then .error "ping origin too long"
    else .ok ((match req.AudioStream with
               | some b => [8, if b then 1 else 0]
               | none => [])
              ++ (18 :: o.length :: o.toList.map Char.toNat)
              ++ (match req.Ping with
                  | some t => 25 :: fixed64 t
                  | none => []))
  | none =>
    .ok ((match req.AudioStream with
          | some b => [8, if b then 1 else 0]
          | none => [])
         ++ (match req.Ping with
             | some t => 25 :: fixed64 t
             | none => []))

/-- Sample decoder, reading field after field into `m`: fields 1 and 2 one-byte
booleans, fields 3 and 4 strings with a one-byte length, field 5 eight fixed
bytes. On a truncated or unknown field it stops with an error and returns `m`
with the fields read so far. -/
def sampleUnmarshalFrom : Nat → Bytes → ServerResponse → ServerResponse × Option String
  | 0, _, m => (m, some "out of fuel")
  | _ + 1, [], m => (m, none)
  | fuel + 1, tag :: rest, m =>
    if tag = 8 then
      match rest with
      | v :: tl => sampleUnmarshalFrom fuel tl { m with Online := some (v != 0) }
      | [] => (m, some "unexpected EOF")
    else if tag = 16 then
      match rest with
      | v :: tl => sampleUnmarshalFrom fuel tl { m with AudioStream := some (v != 0) }
      | [] => (m, some "unexpected EOF")
    else if tag = 26 then
      match rest with
      | n :: tl =>
        if tl.length < n then (m, some "unexpected EOF")
        else sampleUnmarshalFrom fuel (tl.drop n)
          { m with TxUser := some (String.mk ((tl.take n).map Char.ofNat)) }
      | [] => (m, some "unexpected EOF")
    else if tag = 34 then
      match rest with
      | n :: tl =>
        if tl.length < n then (m, some "unexpected EOF")
        else sampleUnmarshalFrom fuel (tl.drop n)
          { m with PingOrigin := some (String.mk ((tl.take n).map Char.ofNat)) }
      | [] => (m, some "unexpected EOF")
    else if tag = 41 then
      if rest.length < 8 then (m, some "unexpected EOF")
      else sampleUnmarshalFrom fuel (rest.drop 8) { m with Pong := some (unfixed64 (rest.take 8)) }
    else (m, some "illegal tag")

/-- Sample decoder on a fresh message. -/
def sampleUnmarshal (data : Bytes) : ServerResponse × Option String :=
  sampleUnmarshalFrom (data.length + 1) data ServerResponse.zero

/-- The sample codec. -/
def sampleCodec : Codec :=
  { Marshal := sampleMarshal, Unmarshal := sampleUnmarshal }

/-- A codec whose encoder fails on every request. -/
def rejectingCodec : Codec :=
  { Marshal := fun _ => .error "marshal failed", Unmarshal := sampleUnmarshal }

/-- A sample environment: the sample codec, identity "abc", station "mystation"
and radio "myradio". -/
def sampleEnv : Env := clientEnv sampleCodec "abc" "mystation" "myradio"

/-- The sample environment with the rejecting codec. -/
def rejectingEnv : Env :=
  { sampleEnv with codec := rejectingCodec }

/-- A state of the loop with the connection established. -/
def connectedState : State :=
  { State.start with connectionStatus := CONNECTED }

/-- A state of the loop with the connection established and the outbound queue
full: twenty audio frames of the recorder that the transport has not taken
yet. -/
def fullQueueState : State :=
  { connectedState with
    toWireCh := List.replicate 20
      { Topic := serverAudioInTopic "mystation" "myradio", Data := [0] } }


/-! ## Lemmas on the response dispatch -/

theorem loopIteration_response (env : Env) (now : Int) (s : State) (data : IOMsg) :
    loopIteration env now s (.response data)
      = (dispatchResponse env now s (env.codec.Unmarshal data.Data).1, .next) := by
  simp [loopIteration]

/-- The publications of the dispatch, in order. -/
theorem dispatchResponse_evPS (env : Env) (now : Int) (s : State) (msg : ServerResponse) :
    (dispatchResponse env now s msg).evPS
      = s.evPS
        ++ (msg.Online.toList.map fun b => { topic := Topic.ServerOnline, value := Value.bool b })
        ++ (msg.AudioStream.toList.map fun b => { topic := Topic.ServerAudioOn, value := Value.bool b })
        ++ (msg.TxUser.toList.map fun u => { topic := Topic.TxUser, value := Value.str u })
        ++ (if msg.PingOrigin = some env.userID then
              msg.Pong.toList.map fun p => { topic := Topic.Ping, value := Value.int (timeSince now p) }
            else []) := by
  rcases msg with ⟨_ | o, _ | a, _ | t, _ | p, _ | g⟩ <;>
    simp [dispatchResponse, ServerResponse.GetOnline, ServerResponse.GetAudioStream,
      ServerResponse.GetTxUser, ServerResponse.GetPingOrigin, ServerResponse.GetPong] <;>
    split <;> simp_all

theorem dispatchResponse_locals (env : Env) (now : Int) (s : State) (msg : ServerResponse) :
    (dispatchResponse env now s msg).connectionStatus = s.connectionStatus
    ∧ (dispatchResponse env now s msg).serverOnline = msg.Online.getD s.serverOnline
    ∧ (dispatchResponse env now s msg).serverAudioOn = msg.AudioStream.getD s.serverAudioOn
    ∧ (dispatchResponse env now s msg).toWireCh = s.toWireCh := by
  rcases msg with ⟨_ | o, _ | a, _ | t, _ | p, _ | g⟩ <;>
    simp [dispatchResponse, ServerResponse.GetOnline, ServerResponse.GetAudioStream] <;>
    split <;> simp_all

theorem publishedOn_dispatch (env : Env) (now : Int) (s : State) (msg : ServerResponse)
    (t : Topic) :
    publishedOn t s (dispatchResponse env now s msg)
      = (((msg.Online.toList.map fun b => (⟨Topic.ServerOnline, Value.bool b⟩ : BusEvent))
        ++ (msg.AudioStream.toList.map fun b => (⟨Topic.ServerAudioOn, Value.bool b⟩ : BusEvent))
        ++ (msg.TxUser.toList.map fun u => (⟨Topic.TxUser, Value.str u⟩ : BusEvent))
        ++ (if msg.PingOrigin = some env.userID then
              msg.Pong.toList.map fun p => (⟨Topic.Ping, Value.int (timeSince now p)⟩ : BusEvent)
            else [])).filter (fun e => decide (e.topic = t))).map (fun e => e.value) := by
  unfold publishedOn
  rw [dispatchResponse_evPS]
  simp only [List.append_assoc, List.drop_left]

/-! ## The claims -/

/-- C1: handling a server response publishes, on the topics ServerOnline,
ServerAudioOn and TxUser, exactly one event carrying the value of each of the
fields online, audioStream, txUser that is present in the decoded message, and
no event for an absent field; the earlier publications stay in place. -/
theorem response_publishes_present_fields (env : Env) (now : Int) (s : State) (data : IOMsg) :
    s.evPS <+: (loopIteration env now s (.response data)).1.evPS
    ∧ publishedOn Topic.ServerOnline s (loopIteration env now s (.response data)).1
        = (env.codec.Unmarshal data.Data).1.Online.toList.map Value.bool
    ∧ publishedOn Topic.ServerAudioOn s (loopIteration env now s (.response data)).1
        = (env.codec.Unmarshal data.Data).1.AudioStream.toList.map Value.bool
    ∧ publishedOn Topic.TxUser s (loopIteration env now s (.response data)).1
        = (env.codec.Unmarshal data.Data).1.TxUser.toList.map Value.str := by
  rw [loopIteration_response]
  refine ⟨?_, ?_, ?_, ?_⟩
  · rw [dispatchResponse_evPS]
    simp only [List.append_assoc]
    exact List.prefix_append _ _
  all_goals
    rw [publishedOn_dispatch]
    rcases (env.codec.Unmarshal data.Data).1 with ⟨_ | o, _ | a, _ | t, _ | p, _ | g⟩ <;>
      simp

/-- C2: handling a server response publishes a Ping (round-trip time) event
if and only if pingOrigin is present and equal to the local identity and pong
is present; the event is then the only one on that topic and carries the time
elapsed since pong. -/
theorem rtt_published_iff_own_ping (env : Env) (now : Int) (s : State) (data : IOMsg) :
    (publishedOn Topic.Ping s (loopIteration env now s (.response data)).1 ≠ []
      ↔ ((env.codec.Unmarshal data.Data).1.PingOrigin = some env.userID
          ∧ (env.codec.Unmarshal data.Data).1.Pong.isSome = true))
    ∧ publishedOn Topic.Ping s (loopIteration env now s (.response data)).1
        = (if (env.codec.Unmarshal data.Data).1.PingOrigin = some env.userID then
            (env.codec.Unmarshal data.Data).1.Pong.toList.map
              fun p => Value.int (timeSince now p)
           else []) := by
  rw [loopIteration_response, publishedOn_dispatch]
  rcases (env.codec.Unmarshal data.Data).1 with ⟨_ | o, _ | a, _ | t, _ | p, _ | g⟩ <;>
    simp <;> split <;> simp_all

/-- C3: while the connection status is not CONNECTED, an iteration of the loop
on any input leaves the outbound queue as it was; on a tick and on an intent
event the whole state is unchanged, so nothing is kept for a later delivery. -/
theorem not_connected_sends_nothing (env : Env) (now : Int) (s : State) (i : Input)
    (h : s.connectionStatus ≠ CONNECTED) :
    (loopIteration env now s i).1.toWireCh = s.toWireCh
    ∧ enqueued s (loopIteration env now s i).1 = []
    ∧ loopIteration env now s .pingTick = (s, .next)
    ∧ loopIteration env now s (.reqServerAudioOn true) = (s, .next)
    ∧ loopIteration env now s (.reqServerAudioOn false) = (s, .next) := by
  have hq : (loopIteration env now s i).1.toWireCh = s.toWireCh := by
    cases i with
    | response data => rw [loopIteration_response]; exact (dispatchResponse_locals env now s _).2.2.2
    | _ => simp [loopIteration, h]
  refine ⟨hq, ?_, ?_, ?_, ?_⟩
  · simp [enqueued, hq]
  all_goals simp [loopIteration, h]

theorem not_connected_sends_nothing_witness :
    State.start.connectionStatus ≠ CONNECTED
    ∧ (loopIteration sampleEnv 7 State.start (.reqServerAudioOn true)).1.toWireCh
        = State.start.toWireCh
    ∧ enqueued State.start (loopIteration sampleEnv 7 State.start (.reqServerAudioOn true)).1 = []
    ∧ loopIteration sampleEnv 7 State.start .pingTick = (State.start, .next)
    ∧ loopIteration sampleEnv 7 State.start (.reqServerAudioOn true) = (State.start, .next)
    ∧ loopIteration sampleEnv 7 State.start (.reqServerAudioOn false) = (State.start, .next) :=
  ⟨by decide, not_connected_sends_nothing sampleEnv 7 State.start (.reqServerAudioOn true)
    (by decide)⟩

/-- C5: handling a server response is a field-wise update: serverOnline and
serverAudioOn take the value of the field online, audioStream when it is
present and keep their value otherwise; the transmitting user known on the bus
changes only when txUser is present; connectionStatus and the outbound queue
are untouched. Handling the same response a second time changes none of these,
and a response with only online = true sets serverOnline and leaves
serverAudioOn and the transmitting user alone. -/
theorem response_is_fieldwise_update (env : Env) (now later : Int) (s : State)
    (msg : ServerResponse) (data : IOMsg) :
    loopIteration env now s (.response data)
        = (dispatchResponse env now s (env.codec.Unmarshal data.Data).1, .next)
    ∧ (dispatchResponse env now s msg).serverOnline = msg.Online.getD s.serverOnline
    ∧ (dispatchResponse env now s msg).serverAudioOn = msg.AudioStream.getD s.serverAudioOn
    ∧ lastTxUser (dispatchResponse env now s msg).evPS
        = (match msg.TxUser with
           | some u => some (Value.str u)
           | none => lastTxUser s.evPS)
    ∧ (dispatchResponse env now s msg).connectionStatus = s.connectionStatus
    ∧ (dispatchResponse env now s msg).toWireCh = s.toWireCh
    ∧ ((dispatchResponse env later (dispatchResponse env now s msg) msg).serverOnline
          = (dispatchResponse env now s msg).serverOnline
        ∧ (dispatchResponse env later (dispatchResponse env now s msg) msg).serverAudioOn
          = (dispatchResponse env now s msg).serverAudioOn
        ∧ lastTxUser (dispatchResponse env later (dispatchResponse env now s msg) msg).evPS
          = lastTxUser (dispatchResponse env now s msg).evPS
        ∧ (dispatchResponse env later (dispatchResponse env now s msg) msg).connectionStatus
          = (dispatchResponse env now s msg).connectionStatus)
    ∧ ((dispatchResponse env now s { ServerResponse.zero with Online := some true }).serverOnline
          = true
        ∧ (dispatchResponse env now s { ServerResponse.zero with Online := some true }).serverAudioOn
          = s.serverAudioOn
        ∧ lastTxUser (dispatchResponse env now s { ServerResponse.zero with Online := some true }).evPS
          = lastTxUser s.evPS
        ∧ publishedOn Topic.ServerOnline s
            (dispatchResponse env now s { ServerResponse.zero with Online := some true })
          = [Value.bool true]) := by
  have htx : ∀ (n : Int) (t : State) (m : ServerResponse),
      lastTxUser (dispatchResponse env n t m).evPS
        = (match m.TxUser with
           | some u => some (Value.str u)
           | none => lastTxUser t.evPS) := by
    intro n t m
    rw [dispatchResponse_evPS]
    rcases m with ⟨_ | o, _ | a, _ | u, _ | p, _ | g⟩ <;>
      simp [lastTxUser, List.filter_append, List.filter_cons] <;>
      split <;> simp
  obtain ⟨h1, h2, h3, h4⟩ := dispatchResponse_locals env now s msg
  obtain ⟨k1, k2, k3, _⟩ := dispatchResponse_locals env later (dispatchResponse env now s msg) msg
  obtain ⟨z1, z2, z3, _⟩ :=
    dispatchResponse_locals env now s { ServerResponse.zero with Online := some true }
  refine ⟨loopIteration_response env now s data, h2, h3, htx now s msg, h1, h4,
    ⟨?_, ?_, ?_, k1⟩, ⟨?_, ?_, ?_, ?_⟩⟩
  · rw [k2, h2]; cases msg.Online <;> simp
  · rw [k3, h3]; cases msg.AudioStream <;> simp
  · rw [htx later, htx now]; cases msg.TxUser <;> simp
  · rw [z2]; rfl
  · rw [z3]; rfl
  · rw [htx]; rfl
  · rw [publishedOn_dispatch]; simp [ServerResponse.zero]

/-- C6 (amended): with the connection status CONNECTED, a tick whose request
encodes to `bytes` does the following. When fewer than twenty messages are
queued it appends exactly one message to the outbound queue and changes nothing
else: the message is addressed to the request topic and its payload is the
encoding of the request with pingOrigin the local identity, ping the clock
reading, and no audioStream field. When the queue is full the loop is parked in
the send of that same message with nothing enqueued, and the message goes on
the queue once there is room. -/
theorem tick_sends_one_ping_when_room (env : Env) (now : Int) (s q : State) (bytes : Bytes)
    (hc : s.connectionStatus = CONNECTED)
    (hm : env.codec.Marshal
            { AudioStream := none, PingOrigin := some env.userID, Ping := some now }
          = .ok bytes) :
    loopIteration env now s .pingTick
        = (if s.toWireCh.length < toWireChCap then
            ({ s with toWireCh := s.toWireCh ++ [{ Topic := env.serverRequestTopic, Data := bytes }] },
              Control.next)
           else (s, Control.parked { Topic := env.serverRequestTopic, Data := bytes }))
    ∧ enqueued s (loopIteration env now s .pingTick).1
        = (if s.toWireCh.length < toWireChCap then
            [{ Topic := env.serverRequestTopic, Data := bytes }]
           else [])
    ∧ completeSend q { Topic := env.serverRequestTopic, Data := bytes }
        = (if q.toWireCh.length < toWireChCap then
            ({ q with toWireCh := q.toWireCh ++ [{ Topic := env.serverRequestTopic, Data := bytes }] },
              Control.next)
           else (q, Control.parked { Topic := env.serverRequestTopic, Data := bytes })) := by
  have h : loopIteration env now s .pingTick
      = (if s.toWireCh.length < toWireChCap then
          ({ s with toWireCh := s.toWireCh ++ [{ Topic := env.serverRequestTopic, Data := bytes }] },
            Control.next)
         else (s, Control.parked { Topic := env.serverRequestTopic, Data := bytes })) := by
    by_cases hroom : s.toWireCh.length < toWireChCap <;>
      simp [loopIteration, hc, sendPing, hm, chanSend, hroom]
  refine ⟨h, ?_, ?_⟩
  · rw [h]
    by_cases hroom : s.toWireCh.length < toWireChCap <;> simp [enqueued, hroom]
  · by_cases hroom : q.toWireCh.length < toWireChCap <;> simp [completeSend, chanSend, hroom]

theorem tick_sends_one_ping_when_room_witness :
    connectedState.connectionStatus = CONNECTED
    ∧ sampleEnv.codec.Marshal
        { AudioStream := none, PingOrigin := some sampleEnv.userID, Ping := some 1000 }
        = .ok [18, 3, 97, 98, 99, 25, 232, 3, 0, 0, 0, 0, 0, 0]
    ∧ loopIteration sampleEnv 1000 connectedState .pingTick
        = ({ connectedState with
              toWireCh := [{ Topic := sampleEnv.serverRequestTopic,
                             Data := [18, 3, 97, 98, 99, 25, 232, 3, 0, 0, 0, 0, 0, 0] }] },
            Control.next)
    ∧ enqueued connectedState (loopIteration sampleEnv 1000 connectedState .pingTick).1
        = [{ Topic := sampleEnv.serverRequestTopic,
             Data := [18, 3, 97, 98, 99, 25, 232, 3, 0, 0, 0, 0, 0, 0] }] :=
  ⟨rfl, rfl,
   (tick_sends_one_ping_when_room sampleEnv 1000 connectedState connectedState
      [18, 3, 97, 98, 99, 25, 232, 3, 0, 0, 0, 0, 0, 0] rfl rfl).1,
   (tick_sends_one_ping_when_room sampleEnv 1000 connectedState connectedState
      [18, 3, 97, 98, 99, 25, 232, 3, 0, 0, 0, 0, 0, 0] rfl rfl).2.1⟩

/-- C6 as stated fails on a full outbound queue: with the connection status
CONNECTED, twenty messages queued and an encoding that succeeds, the tick
enqueues nothing; the loop is parked in the send of the ping. -/
theorem tick_on_full_queue_enqueues_nothing :
    fullQueueState.connectionStatus = CONNECTED
    ∧ fullQueueState.toWireCh.length = 20
    ∧ sampleEnv.codec.Marshal
        { AudioStream := none, PingOrigin := some sampleEnv.userID, Ping := some 1000 }
        = .ok [18, 3, 97, 98, 99, 25, 232, 3, 0, 0, 0, 0, 0, 0]
    ∧ loopIteration sampleEnv 1000 fullQueueState .pingTick
        = (fullQueueState,
            Control.parked { Topic := sampleEnv.serverRequestTopic,
                             Data := [18, 3, 97, 98, 99, 25, 232, 3, 0, 0, 0, 0, 0, 0] })
    ∧ enqueued fullQueueState (loopIteration sampleEnv 1000 fullQueueState .pingTick).1 = []
    ∧ ¬ enqueued fullQueueState (loopIteration sampleEnv 1000 fullQueueState .pingTick).1
        = [{ Topic := sampleEnv.serverRequestTopic,
             Data := [18, 3, 97, 98, 99, 25, 232, 3, 0, 0, 0, 0, 0, 0] }] := by
  have h : enqueued fullQueueState (loopIteration sampleEnv 1000 fullQueueState .pingTick).1
      = [] := rfl
  refine ⟨rfl, rfl, rfl, rfl, h, ?_⟩
  rw [h]
  exact List.noConfusion

/-- C7 (amended): with the connection status CONNECTED, an intent event
carrying `b` whose request encodes to `bytes` does the following. When fewer
than twenty messages are queued it appends exactly one message to the outbound
queue and changes nothing else: the message is addressed to the request topic
and its payload is the encoding of the request whose audioStream field is
present with value `b` and whose pingOrigin and ping fields are absent. When
the queue is full the loop is parked in the send of that same message with
nothing enqueued, and the message goes on the queue once there is room. The
request differs from the one with no field set, for `b` false as well. -/
theorem intent_sends_one_request_when_room (env : Env) (now : Int) (s q : State) (b : Bool)
    (bytes : Bytes) (hc : s.connectionStatus = CONNECTED)
    (hm : env.codec.Marshal { AudioStream := some b, PingOrigin := none, Ping := none }
          = .ok bytes) :
    loopIteration env now s (.reqServerAudioOn b)
        = (if s.toWireCh.length < toWireChCap then
            ({ s with toWireCh := s.toWireCh ++ [{ Topic := env.serverRequestTopic, Data := bytes }] },
              Control.next)
           else (s, Control.parked { Topic := env.serverRequestTopic, Data := bytes }))
    ∧ enqueued s (loopIteration env now s (.reqServerAudioOn b)).1
        = (if s.toWireCh.length < toWireChCap then
            [{ Topic := env.serverRequestTopic, Data := bytes }]
           else [])
    ∧ completeSend q { Topic := env.serverRequestTopic, Data := bytes }
        = (if q.toWireCh.length < toWireChCap then
            ({ q with toWireCh := q.toWireCh ++ [{ Topic := env.serverRequestTopic, Data := bytes }] },
              Control.next)
           else (q, Control.parked { Topic := env.serverRequestTopic, Data := bytes }))
    ∧ ({ AudioStream := some b, PingOrigin := none, Ping := none } : ClientRequest)
        ≠ { AudioStream := none, PingOrigin := none, Ping := none } := by
  have h : loopIteration env now s (.reqServerAudioOn b)
      = (if s.toWireCh.length < toWireChCap then
          ({ s with toWireCh := s.toWireCh ++ [{ Topic := env.serverRequestTopic, Data := bytes }] },
            Control.next)
         else (s, Control.parked { Topic := env.serverRequestTopic, Data := bytes })) := by
    by_cases hroom : s.toWireCh.length < toWireChCap <;>
      simp [loopIteration, hc, sendClientRequest, hm, chanSend, hroom]
  refine ⟨h, ?_, ?_, ?_⟩
  · rw [h]
    by_cases hroom : s.toWireCh.length < toWireChCap <;> simp [enqueued, hroom]
  · by_cases hroom : q.toWireCh.length < toWireChCap <;> simp [completeSend, chanSend, hroom]
  · simp

theorem intent_sends_one_request_when_room_witness :
    connectedState.connectionStatus = CONNECTED
    ∧ sampleEnv.codec.Marshal { AudioStream := some false, PingOrigin := none, Ping := none }
        = .ok [8, 0]
    ∧ loopIteration sampleEnv 1000 connectedState (.reqServerAudioOn false)
        = ({ connectedState with
              toWireCh := [{ Topic := sampleEnv.serverRequestTopic, Data := [8, 0] }] },
            Control.next)
    ∧ enqueued connectedState
        (loopIteration sampleEnv 1000 connectedState (.reqServerAudioOn false)).1
        = [{ Topic := sampleEnv.serverRequestTopic, Data := [8, 0] }] :=
  ⟨rfl, rfl,
   (intent_sends_one_request_when_room sampleEnv 1000 connectedState connectedState false
      [8, 0] rfl rfl).1,
   (intent_sends_one_request_when_room sampleEnv 1000 connectedState connectedState false
      [8, 0] rfl rfl).2.1⟩

/-- C7 as stated fails on a full outbound queue: with the connection status
CONNECTED, twenty messages queued and an encoding that succeeds, the intent
event enqueues nothing; the loop is parked in the send of the request. -/
theorem intent_on_full_queue_enqueues_nothing :
    fullQueueState.connectionStatus = CONNECTED
    ∧ fullQueueState.toWireCh.length = 20
    ∧ sampleEnv.codec.Marshal { AudioStream := some true, PingOrigin := none, Ping := none }
        = .ok [8, 1]
    ∧ loopIteration sampleEnv 1000 fullQueueState (.reqServerAudioOn true)
        = (fullQueueState,
            Control.parked { Topic := sampleEnv.serverRequestTopic, Data := [8, 1] })
    ∧ enqueued fullQueueState
        (loopIteration sampleEnv 1000 fullQueueState (.reqServerAudioOn true)).1 = []
    ∧ ¬ enqueued fullQueueState
          (loopIteration sampleEnv 1000 fullQueueState (.reqServerAudioOn true)).1
        = [{ Topic := sampleEnv.serverRequestTopic, Data := [8, 1] }] := by
  have h : enqueued fullQueueState
      (loopIteration sampleEnv 1000 fullQueueState (.reqServerAudioOn true)).1 = [] := rfl
  refine ⟨rfl, rfl, rfl, rfl, h, ?_⟩
  rw [h]
  exact List.noConfusion

/-- C8: for every station and radio the derived topics are the base
station/radios/radio/audio followed by /request, /response, /audio_out and
/audio_in; the transport subscribes to the response and audio-out topics, in
that order; the recorder sends its audio to the audio-in topic; and every
message the loop puts on the outbound queue, or is parked with on a full
queue, is addressed to the request topic. -/
theorem topics_follow_naming_scheme (station radio userID : String) (codec : Codec)
    (now : Int) (s : State) (i : Input) :
    serverBaseTopic station radio = station ++ "/radios/" ++ radio ++ "/audio"
    ∧ serverRequestTopic station radio
        = station ++ "/radios/" ++ radio ++ "/audio" ++ "/request"
    ∧ serverResponseTopic station radio
        = station ++ "/radios/" ++ radio ++ "/audio" ++ "/response"
    ∧ serverAudioOutTopic station radio
        = station ++ "/radios/" ++ radio ++ "/audio" ++ "/audio_out"
    ∧ serverAudioInTopic station radio
        = station ++ "/radios/" ++ radio ++ "/audio" ++ "/audio_in"
    ∧ (wiring station radio).settingsTopics
        = [station ++ "/radios/" ++ radio ++ "/audio" ++ "/response",
           station ++ "/radios/" ++ radio ++ "/audio" ++ "/audio_out"]
    ∧ (wiring station radio).recorderAudioToWireTopic
        = station ++ "/radios/" ++ radio ++ "/audio" ++ "/audio_in"
    ∧ (clientEnv codec userID station radio).serverRequestTopic
        = station ++ "/radios/" ++ radio ++ "/audio" ++ "/request"
    ∧ (∀ m ∈ enqueued s (loopIteration (clientEnv codec userID station radio) now s i).1,
        m.Topic = station ++ "/radios/" ++ radio ++ "/audio" ++ "/request")
    ∧ ∀ m, (loopIteration (clientEnv codec userID station radio) now s i).2 = Control.parked m →
        m.Topic = station ++ "/radios/" ++ radio ++ "/audio" ++ "/request" := by
  refine ⟨rfl, rfl, rfl, rfl, rfl, rfl, rfl, rfl, ?_, ?_⟩
  · intro m hm
    cases i with
    | response data =>
      rw [loopIteration_response] at hm
      simp [enqueued, (dispatchResponse_locals _ now s _).2.2.2] at hm
    | pingTick =>
      by_cases hc : s.connectionStatus = CONNECTED
      · by_cases hroom : s.toWireCh.length < toWireChCap
        · cases hx : codec.Marshal
              { AudioStream := none, PingOrigin := some userID, Ping := some now } <;>
            simp [enqueued, loopIteration, hc, sendPing, chanSend, hroom, clientEnv, hx] at hm
          rw [hm]; rfl
        · cases hx : codec.Marshal
              { AudioStream := none, PingOrigin := some userID, Ping := some now } <;>
            simp [enqueued, loopIteration, hc, sendPing, chanSend, hroom, clientEnv, hx] at hm
      · simp [enqueued, loopIteration, hc] at hm
    | reqServerAudioOn b =>
      by_cases hc : s.connectionStatus = CONNECTED
      · by_cases hroom : s.toWireCh.length < toWireChCap
        · cases hx : codec.Marshal { AudioStream := some b, PingOrigin := none, Ping := none } <;>
            simp [enqueued, loopIteration, hc, sendClientRequest, chanSend, hroom, clientEnv,
              hx] at hm
          rw [hm]; rfl
        · cases hx : codec.Marshal { AudioStream := some b, PingOrigin := none, Ping := none } <;>
            simp [enqueued, loopIteration, hc, sendClientRequest, chanSend, hroom, clientEnv,
              hx] at hm
      · simp [enqueued, loopIteration, hc] at hm
    | _ => simp [enqueued, loopIteration] at hm
  · intro m hm
    cases i with
    | response data =>
      rw [loopIteration_response] at hm
      cases hm
    | pingTick =>
      by_cases hc : s.connectionStatus = CONNECTED
      · by_cases hroom : s.toWireCh.length < toWireChCap
        · cases hx : codec.Marshal
              { AudioStream := none, PingOrigin := some userID, Ping := some now } <;>
            simp [loopIteration, hc, sendPing, chanSend, hroom, clientEnv, hx] at hm
        · cases hx : codec.Marshal
              { AudioStream := none, PingOrigin := some userID, Ping := some now } <;>
            simp [loopIteration, hc, sendPing, chanSend, hroom, clientEnv, hx] at hm
          rw [← hm]; rfl
      · simp [loopIteration, hc] at hm
    | reqServerAudioOn b =>
      by_cases hc : s.connectionStatus = CONNECTED
      · by_cases hroom : s.toWireCh.length < toWireChCap
        · cases hx : codec.Marshal { AudioStream := some b, PingOrigin := none, Ping := none } <;>
            simp [loopIteration, hc, sendClientRequest, chanSend, hroom, clientEnv, hx] at hm
        · cases hx : codec.Marshal { AudioStream := some b, PingOrigin := none, Ping := none } <;>
            simp [loopIteration, hc, sendClientRequest, chanSend, hroom, clientEnv, hx] at hm
          rw [← hm]; rfl
      · simp [loopIteration, hc] at hm
    | _ => simp [loopIteration] at hm

/-- C10: when encoding the request fails, `sendPing` and `sendClientRequest`
leave the outbound queue as it was, and the iteration of the loop that called
them leaves the whole state as it was and goes on to the next event;
the error `sendClientRequest` returns is nil on every input, encodable or
not. -/
theorem marshal_failure_drops_message (envP envR : Env) (now : Int) (s : State) (b : Bool)
    (e1 e2 : String) (c : Codec) (b0 : Bool) (topic : String) (ch : List IOMsg)
    (hp : envP.codec.Marshal
            { AudioStream := none, PingOrigin := some envP.userID, Ping := some now }
          = .error e1)
    (hr : envR.codec.Marshal { AudioStream := some b, PingOrigin := none, Ping := none }
          = .error e2) :
    sendPing envP.codec now envP.userID envP.serverRequestTopic s.toWireCh
        = Sent.done () s.toWireCh
    ∧ sendClientRequest envR.codec b envR.serverRequestTopic s.toWireCh
        = Sent.done none s.toWireCh
    ∧ loopIteration envP now s .pingTick = (s, .next)
    ∧ loopIteration envR now s (.reqServerAudioOn b) = (s, .next)
    ∧ (sendClientRequest c b0 topic ch).ret = none := by
  refine ⟨?_, ?_, ?_, ?_, ?_⟩
  · simp [sendPing, hp]
  · simp [sendClientRequest, hr]
  · by_cases hc : s.connectionStatus = CONNECTED
    · rcases s with ⟨cs, so, sa, q, ev⟩
      simp only at hc
      subst hc
      simp [loopIteration, sendPing, hp]
    · simp [loopIteration, hc]
  · by_cases hc : s.connectionStatus = CONNECTED
    · rcases s with ⟨cs, so, sa, q, ev⟩
      simp only at hc
      subst hc
      simp [loopIteration, sendClientRequest, hr]
    · simp [loopIteration, hc]
  · simp only [sendClientRequest, chanSend]
    cases c.Marshal { AudioStream := some b0, PingOrigin := none, Ping := none }
    · rfl
    · by_cases hroom : ch.length < toWireChCap <;> simp [hroom, Sent.ret]

theorem marshal_failure_drops_message_witness :
    rejectingEnv.codec.Marshal
        { AudioStream := none, PingOrigin := some rejectingEnv.userID, Ping := some 1000 }
        = .error "marshal failed"
    ∧ rejectingEnv.codec.Marshal { AudioStream := some true, PingOrigin := none, Ping := none }
        = .error "marshal failed"
    ∧ sendPing rejectingEnv.codec 1000 rejectingEnv.userID rejectingEnv.serverRequestTopic
        connectedState.toWireCh = Sent.done () connectedState.toWireCh
    ∧ sendClientRequest rejectingEnv.codec true rejectingEnv.serverRequestTopic
        connectedState.toWireCh = Sent.done none connectedState.toWireCh
    ∧ loopIteration rejectingEnv 1000 connectedState .pingTick = (connectedState, .next)
    ∧ loopIteration rejectingEnv 1000 connectedState (.reqServerAudioOn true)
        = (connectedState, .next)
    ∧ (sendClientRequest sampleCodec false "t" []).ret = none :=
  ⟨rfl, rfl, marshal_failure_drops_message rejectingEnv rejectingEnv 1000 connectedState true
    "marshal failed" "marshal failed" sampleCodec false "t" [] rfl rfl⟩

/-- C4: on the payload 08 01 10 (field online = true, then a field cut off
after its tag) the decoder returns an error together with a message in which
online is set, and the iteration of the loop publishes ServerOnline(true) and
sets serverOnline, where the claim expects no event and no change. -/
theorem decode_error_still_dispatches :
    sampleEnv.codec.Unmarshal [8, 1, 16]
        = ({ ServerResponse.zero with Online := some true }, some "unexpected EOF")
    ∧ loopIteration sampleEnv 0 State.start
        (.response { Topic := serverResponseTopic "mystation" "myradio", Data := [8, 1, 16] })
        = ({ State.start with
              serverOnline := true,
              evPS := [{ topic := Topic.ServerOnline, value := Value.bool true }] },
            .next)
    ∧ publishedOn Topic.ServerOnline State.start
        (loopIteration sampleEnv 0 State.start
          (.response { Topic := serverResponseTopic "mystation" "myradio", Data := [8, 1, 16] })).1
        = [Value.bool true] := by
  refine ⟨rfl, rfl, ?_⟩
  decide

/-! ## The shutdown barrier -/

theorem sysStep_preserves (env : Env) (s t : Sys) (a : Action)
    (hs : BarrierInv s) (h : sysStep env s a = some t) : BarrierInv t := by
  obtain ⟨hwg, hex⟩ := hs
  cases a with
  | workerDone w =>
    simp only [sysStep, workerReturns] at h
    split at h
    · rename_i hw
      obtain ⟨hne, hmem⟩ := hw
      cases h
      refine ⟨?_, fun hp => absurd hp hne⟩
      have hpos : 0 < s.running.length := List.length_pos_of_mem hmem
      simp only [List.length_erase_of_mem hmem, hwg]
      omega
    · cases h
  | input now i =>
    simp only [sysStep] at h
    split at h
    · rename_i hsel
      split at h <;> cases h
      · exact ⟨hwg, fun hp => by simp [hsel] at hp⟩
      · exact ⟨hwg, fun hp => by simp at hp⟩
      · exact ⟨hwg, fun hp => by simp at hp⟩
    · cases h
  | waitReturns =>
    simp only [sysStep] at h
    split at h
    · rename_i hw
      cases h
      exact ⟨hwg, fun _ => hw.2⟩
    · cases h
  | sendCompletes =>
    simp only [sysStep] at h
    split at h
    · split at h
      · cases h
        exact ⟨hwg, fun hp => by simp at hp⟩
      · cases h
    · cases h
  | transportTakes =>
    simp only [sysStep, transportTakes] at h
    split at h
    · split at h
      · cases h
      · cases h
        exact ⟨hwg, hex⟩
    · cases h
  | recorderSends m =>
    simp only [sysStep, recorderSends] at h
    split at h
    · cases h
      exact ⟨hwg, hex⟩
    · cases h

theorem run_preserves (env : Env) (acts : List Action) :
    ∀ (s t : Sys), BarrierInv s → run env s acts = some t → BarrierInv t := by
  induction acts with
  | nil =>
    intro s t hs h
    simp only [run, Option.some.injEq] at h
    exact h ▸ hs
  | cons a rest ih =>
    intro s t hs h
    simp only [run] at h
    split at h
    · cases h
    · rename_i u hu
      exact ih u t (sysStep_preserves env s u a hs hu) h

theorem run_doneCount (env : Env) (acts : List Action) :
    ∀ (s t : Sys), run env s acts = some t → t.wg + (doneCount acts : Int) = s.wg := by
  induction acts with
  | nil =>
    intro s t h
    simp only [run, Option.some.injEq] at h
    simp [doneCount, h]
  | cons a rest ih =>
    intro s t h
    simp only [run] at h
    split at h
    · cases h
    · rename_i u hu
      have hrest := ih u t h
      have hstep : u.wg + (doneCount [a] : Int) = s.wg := by
        cases a with
        | workerDone w =>
          simp only [sysStep, workerReturns] at hu
          split at hu
          · cases hu
            simp [doneCount]
          · cases hu
        | input now i =>
          simp only [sysStep] at hu
          split at hu
          · split at hu
            all_goals
              cases hu
              simp [doneCount]
          · cases hu
        | waitReturns =>
          simp only [sysStep] at hu
          split at hu <;> cases hu
          simp [doneCount]
        | sendCompletes =>
          simp only [sysStep] at hu
          split at hu
          · split at hu
            · cases hu
              simp [doneCount]
            · cases hu
          · cases hu
        | transportTakes =>
          simp only [sysStep, transportTakes] at hu
          split at hu
          · split at hu
            · cases hu
            · cases hu
              simp [doneCount]
          · cases hu
        | recorderSends m =>
          simp only [sysStep, recorderSends] at hu
          split at hu
          · cases hu
            simp [doneCount]
          · cases hu
      have hsplit : doneCount (a :: rest) = doneCount [a] + doneCount rest := by
        cases a <;> simp [doneCount]
        omega
      rw [hsplit]
      push_cast
      omega

theorem barrierInv_start : BarrierInv Sys.start := by
  constructor
  · decide
  · intro h
    cases h

/-- C9: the barrier starts at 3 with the three workers running. In every
execution from the start of the loop, whatever the order of the steps, the
counter equals the number of workers still running; if the process has exited
then the counter is zero, no worker is running and exactly three completion
signals came before; the step that exits is enabled only in `wg.Wait()` with
the counter at zero; and an OsExit event only publishes Shutdown(true) and
returns to the `select`. -/
theorem exit_only_after_all_workers (env : Env) (acts : List Action) (t : Sys)
    (now : Int) (u : Sys) (st : State)
    (h : run env Sys.start acts = some t) :
    (Sys.start.wg = 3
      ∧ Sys.start.running = [Worker.mqtt, Worker.player, Worker.recorder])
    ∧ t.wg = (t.running.length : Int)
    ∧ (t.phase = Phase.exited → t.wg = 0 ∧ t.running = [] ∧ doneCount acts = 3)
    ∧ ((sysStep env u Action.waitReturns).isSome = true ↔ (u.phase = Phase.waiting ∧ u.wg = 0))
    ∧ loopIteration env now st Input.osExit
        = ({ st with evPS := st.evPS ++ [{ topic := Topic.Shutdown, value := Value.bool true }] },
            Control.next)
    ∧ sysStep env { u with phase := Phase.selecting } (Action.input now Input.osExit)
        = some { u with
            phase := Phase.selecting,
            loop := { u.loop with
              evPS := u.loop.evPS ++ [{ topic := Topic.Shutdown, value := Value.bool true }] } } := by
  have hinv := run_preserves env acts Sys.start t barrierInv_start h
  have hcnt := run_doneCount env acts Sys.start t h
  refine ⟨⟨by decide, rfl⟩, hinv.1, ?_, ?_, rfl, ?_⟩
  · intro hp
    have h0 := hinv.2 hp
    refine ⟨h0, ?_, ?_⟩
    · have hl := hinv.1
      rw [h0] at hl
      exact List.length_eq_zero.mp (by exact_mod_cast hl.symm)
    · have h3 : Sys.start.wg = 3 := by decide
      rw [h0, h3] at hcnt
      omega
  · simp only [sysStep]
    split <;> simp_all
  · simp [sysStep, loopIteration]

theorem exit_only_after_all_workers_witness :
    run sampleEnv Sys.start
        [Action.workerDone Worker.player, Action.input 5 Input.osExit,
         Action.input 6 Input.shutdown, Action.workerDone Worker.recorder,
         Action.workerDone Worker.mqtt, Action.waitReturns]
      = some { wg := 0, running := [], phase := Phase.exited,
               loop := { State.start with
                 evPS := [{ topic := Topic.Shutdown, value := Value.bool true }] } }
    ∧ doneCount
        [Action.workerDone Worker.player, Action.input 5 Input.osExit,
         Action.input 6 Input.shutdown, Action.workerDone Worker.recorder,
         Action.workerDone Worker.mqtt, Action.waitReturns] = 3
    ∧ (sysStep sampleEnv Sys.start Action.waitReturns).isSome = false :=
  ⟨rfl,
   ((exit_only_after_all_workers sampleEnv
      [Action.workerDone Worker.player, Action.input 5 Input.osExit,
       Action.input 6 Input.shutdown, Action.workerDone Worker.recorder,
       Action.workerDone Worker.mqtt, Action.waitReturns]
      { wg := 0, running := [], phase := Phase.exited,
        loop := { State.start with
          evPS := [{ topic := Topic.Shutdown, value := Value.bool true }] } }
      0 Sys.start State.start rfl).2.2.1 rfl).2.2,
   by decide⟩

end RemoteAudio
